import Mathlib

/-!
Shallow embedding of the StelSocial application (src/app.py): the relational
data model (User, Post, Comment, Like, Follow, Conversation, Message) and the
route handlers that the specification's claims talk about. Database tables are
modelled as lists of rows in insertion order; `db.func.now()` timestamps and
autoincrement primary keys are modelled by a `now` clock and a `next_id`
counter carried in the state. Python truthiness of a string (`if not text`)
is modelled as equality with the empty string. SQL `ILIKE` is modelled by an
executable LIKE-pattern matcher over ASCII-case-folded characters.
-/

namespace StelSocial

/-- Row of the `user` table (app.py `class User`). Nullable text columns are
modelled as `String` (absent = value last stored; the routes under study only
ever store strings). -/
structure User where
  id : Nat
  username : String
  password_hash : String
  bio : String
  profile_picture : String
deriving DecidableEq

/-- Row of the `post` table (app.py `class Post`). `created_at` is the
`db.func.now()` timestamp, modelled as a natural number. -/
structure Post where
  id : Nat
  image_url : String
  caption : String
  user_id : Nat
  created_at : Nat
deriving DecidableEq

/-- Row of the `comment` table (app.py `class Comment`). -/
structure Comment where
  id : Nat
  text : String
  user_id : Nat
  post_id : Nat
  created_at : Nat
deriving DecidableEq

/-- Row of the `like` table (app.py `class Like`). -/
structure Like where
  id : Nat
  user_id : Nat
  post_id : Nat
  created_at : Nat
deriving DecidableEq

/-- Row of the `follow` table (app.py `class Follow`): composite primary key
(follower_id, followed_id). -/
structure Follow where
  follower_id : Nat
  followed_id : Nat
  timestamp : Nat
deriving DecidableEq

/-- Row of the `conversation` table (app.py `class Conversation`). -/
structure Conversation where
  id : Nat
  user1_id : Nat
  user2_id : Nat
deriving DecidableEq

/-- Row of the `message` table (app.py `class Message`). -/
structure Message where
  id : Nat
  conversation_id : Nat
  sender_id : Nat
  text : String
  created_at : Nat
deriving DecidableEq

/-- The whole relational store, plus the autoincrement counter `next_id`
shared by all integer primary keys and the request clock `now`. -/
structure State where
  users : List User
  posts : List Post
  comments : List Comment
  likes : List Like
  follows : List Follow
  conversations : List Conversation
  messages : List Message
  next_id : Nat
  now : Nat
deriving DecidableEq

/-- The empty database. -/
def State.empty : State :=
  ⟨[], [], [], [], [], [], [], 1, 0⟩

/-- Errors surfaced by the routes as `flash(..., 'danger'/'warning')`
messages, under the names the specification gives them. -/
inductive AppError where
  | selfFollowRejected
  | emptyComment
  | emptyMessage
  | notFound
deriving DecidableEq

/-- Errors of the login route; `InvalidCredentials` is the single error
flashed both for an unknown username and for a wrong password. -/
inductive AuthError where
  | invalidCredentials
deriving DecidableEq

/-- Descending order on `Post.created_at`: `Post.query.order_by(Post.created_at.desc())`. -/
def postLe (a b : Post) : Prop := b.created_at ≤ a.created_at

instance : DecidableRel postLe := fun a b => Nat.decLe b.created_at a.created_at

instance : IsTotal Post postLe := ⟨fun a b => Nat.le_total b.created_at a.created_at⟩

instance : IsTrans Post postLe := ⟨fun _ _ _ hab hbc => Nat.le_trans hbc hab⟩

/-- `ORDER BY created_at DESC` on a list of posts. -/
def sortByCreatedDesc (l : List Post) : List Post :=
  l.insertionSort postLe

/-- app.py `User.is_following` (lines 53-54): the follow edge
(self.id, user.id) exists. -/
def is_following (s : State) (selfId otherId : Nat) : Bool :=
  (s.follows.find? (fun f => f.follower_id == selfId && f.followed_id == otherId)).isSome

/-- app.py `User.follow` (lines 43-46): insert a Follow edge unless already
following. -/
def userFollow (s : State) (selfId otherId : Nat) : State :=
  if is_following s selfId otherId then s
  else { s with follows := s.follows ++ [⟨selfId, otherId, s.now⟩], now := s.now + 1 }

/-- app.py `User.unfollow` (lines 48-51): delete the first matching edge, if
any (`filter_by(...).first()` then `db.session.delete`). -/
def userUnfollow (s : State) (selfId otherId : Nat) : State :=
  { s with follows := s.follows.eraseP (fun f => f.follower_id == selfId && f.followed_id == otherId) }

/-- Lookup of a user row by id (`User.query.get`). -/
def findUserById (s : State) (uid : Nat) : Option User :=
  s.users.find? (fun u => u.id == uid)

/-- Lookup of a user row by username (`User.query.filter_by(username=...).first()`). -/
def findUserByName (s : State) (name : String) : Option User :=
  s.users.find? (fun u => u.username == name)

/-- Lookup of a post row by id (`Post.query.get_or_404`). -/
def findPostById (s : State) (pid : Nat) : Option Post :=
  s.posts.find? (fun p => p.id == pid)

/-- app.py route `follow_user` (lines 202-216), for an authenticated actor:
resolve the target (404 when absent), reject a self-follow, otherwise run
`User.follow` and commit. The flashed error, if any, is returned alongside
the resulting state. -/
def follow_user (s : State) (actorId targetId : Nat) : Option AppError × State :=
  match findUserById s targetId with
  | none => (some .notFound, s)
  | some target =>
    if target.id == actorId then (some .selfFollowRejected, s)
    else (none, userFollow s actorId target.id)

/-- app.py route `unfollow_user` (lines 218-232), for an authenticated actor. -/
def unfollow_user (s : State) (actorId targetId : Nat) : Option AppError × State :=
  match findUserById s targetId with
  | none => (some .notFound, s)
  | some target =>
    if target.id == actorId then (some .selfFollowRejected, s)
    else (none, userUnfollow s actorId target.id)

/-- app.py route `like_post` (lines 304-324), for an authenticated user:
resolve the post (`Post.query.get_or_404`, 404 when absent), then look up the
first `Like` row for (user, post.id) and delete it, else insert a fresh one. -/
def like_post (s : State) (userId postId : Nat) : Option AppError × State :=
  match findPostById s postId with
  | none => (some .notFound, s)
  | some post =>
    match s.likes.find? (fun l => l.user_id == userId && l.post_id == post.id) with
    | some _ =>
      (none, { s with likes := s.likes.eraseP (fun l => l.user_id == userId && l.post_id == post.id) })
    | none =>
      (none, { s with likes := s.likes ++ [⟨s.next_id, userId, post.id, s.now⟩],
                      next_id := s.next_id + 1, now := s.now + 1 })

/-- Number of `Like` rows for the pair (user, post). -/
def likeCount (s : State) (userId postId : Nat) : Nat :=
  s.likes.countP (fun l => l.user_id == userId && l.post_id == postId)

/-- Iterated `like_post` over a list of (user, post) toggle requests, in
order (each request leaves the database it produced, error or not, to the
next one, as consecutive HTTP requests do). -/
def runToggles (s : State) (ops : List (Nat × Nat)) : State :=
  ops.foldl (fun st q => (like_post st q.1 q.2).2) s

/-- app.py route `add_comment` (lines 286-302), for an authenticated user:
404 when the post is missing, reject when the submitted text is the empty
string (Python falsiness of `str`), otherwise insert one Comment row. -/
def add_comment (s : State) (userId postId : Nat) (text : String) : Option AppError × State :=
  match findPostById s postId with
  | none => (some .notFound, s)
  | some post =>
    if text == "" then (some .emptyComment, s)
    else (none, { s with comments := s.comments ++ [⟨s.next_id, text, userId, post.id, s.now⟩],
                         next_id := s.next_id + 1, now := s.now + 1 })

/-- The symmetric participant filter of the `conversation` route (lines
389-392): `(user1 == cur AND user2 == other) OR (user1 == other AND user2 == cur)`. -/
def convMatches (c : Conversation) (cur other : Nat) : Bool :=
  (c.user1_id == cur && c.user2_id == other) || (c.user1_id == other && c.user2_id == cur)

/-- app.py route `conversation`, lookup-or-create part (lines 388-397):
return the first conversation whose unordered participant pair is
(cur, other); create one with user1 = cur, user2 = other when none exists. -/
def getOrCreateConversation (s : State) (cur other : Nat) : Conversation × State :=
  match s.conversations.find? (fun c => convMatches c cur other) with
  | some c => (c, s)
  | none =>
    let c : Conversation := ⟨s.next_id, cur, other⟩
    (c, { s with conversations := s.conversations ++ [c], next_id := s.next_id + 1 })

/-- Number of conversation rows whose unordered participant pair is (a, b). -/
def convPairCount (s : State) (a b : Nat) : Nat :=
  s.conversations.countP (fun c => convMatches c a b)

/-- Iterated `getOrCreateConversation` over a list of (caller, other) pairs. -/
def runConversations (s : State) (ops : List (Nat × Nat)) : State :=
  ops.foldl (fun st q => (getOrCreateConversation st q.1 q.2).2) s

/-- app.py route `conversation`, message-send part (lines 399-407): reject
when the submitted text is the empty string (Python falsiness of `str`),
otherwise insert one Message row with the current timestamp. -/
def sendMessage (s : State) (conversationId senderId : Nat) (text : String) :
    Option AppError × State :=
  if text == "" then (some .emptyMessage, s)
  else (none, { s with messages := s.messages ++ [⟨s.next_id, conversationId, senderId, text, s.now⟩],
                       next_id := s.next_id + 1, now := s.now + 1 })

/-- app.py route `login` (lines 158-171): look up the user by username and
check the password against the stored hash. Password verification
(`werkzeug.check_password_hash`) is an external primitive, passed in as the
parameter `verify`. Both failure paths flash the same message. -/
def login (verify : String → String → Bool) (s : State) (username password : String) :
    Except AuthError User :=
  match findUserByName s username with
  | some user => if verify user.password_hash password then .ok user
                 else .error .invalidCredentials
  | none => .error .invalidCredentials

/-- app.py route `edit_profile`, POST branch (lines 234-251): always store
the submitted bio; replace the profile picture only when the submitted value
is non-empty (Python truthiness of `str`). -/
def edit_profile (u : User) (bioForm pictureForm : String) : User :=
  let u' := { u with bio := bioForm }
  if pictureForm == "" then u' else { u' with profile_picture := pictureForm }

/-- app.py `User.get_followed_posts` (lines 56-61): posts joined with Follow
edges whose follower is `self`, SQL-UNIONed (hence deduplicated) with the
user's own posts, ordered by creation timestamp descending. -/
def get_followed_posts (s : State) (selfId : Nat) : List Post :=
  let followed := s.posts.filter
    (fun p => s.follows.any (fun f => f.followed_id == p.user_id && f.follower_id == selfId))
  let own := s.posts.filter (fun p => p.user_id == selfId)
  sortByCreatedDesc ((followed ++ own).dedup)

/-- app.py route `index` (lines 131-139): the feed page. All posts ordered
by creation timestamp descending, paginated with `per_page = 10`
(`error_out=False` clamps the page number to at least 1). Note the route
queries `Post.query` unfiltered; it does not call `get_followed_posts`. -/
def index (s : State) (page : Nat) : List Post :=
  ((sortByCreatedDesc s.posts).drop ((max page 1 - 1) * 10)).take 10

/-- ASCII case folding (the folding SQL LIKE/ILIKE applies to pattern and
subject): map code points 65-90 to 97-122, leave everything else unchanged. -/
def lowerChar (c : Char) : Char :=
  if 65 ≤ c.toNat ∧ c.toNat ≤ 90 then Char.ofNat (c.toNat + 32) else c

/-- SQL LIKE pattern matching over case-folded characters: `%` matches any
sequence, `_` matches any single character, a backslash escapes the next
pattern character, anything else matches itself. -/
def likeMatch : List Char → List Char → Bool
  | [], [] => true
  | [], _ :: _ => false
  | '%' :: p, s =>
    likeMatch p s ||
      (match s with
       | [] => false
       | _ :: s' => likeMatch ('%' :: p) s')
  | '_' :: p, s =>
    (match s with
     | [] => false
     | _ :: s' => likeMatch p s')
  | '\\' :: c :: p, s =>
    (match s with
     | [] => false
     | d :: s' => d == c && likeMatch p s')
  | c :: p, s =>
    (match s with
     | [] => false
     | d :: s' => d == c && likeMatch p s')
termination_by p s => (s.length, p.length)

/-- `column ILIKE pattern`: case-fold both sides, then LIKE-match. -/
def ilike (subject pattern : String) : Bool :=
  likeMatch (pattern.data.map lowerChar) (subject.data.map lowerChar)

/-- app.py route `search` (lines 343-356): an empty query renders the index
template with no result lists; a non-empty query returns the users whose
username matches `ILIKE '%query%'` and the posts whose caption matches
`ILIKE '%query%'`, the posts ordered by creation timestamp descending. -/
def search (s : State) (query : String) : List User × List Post :=
  if query == "" then ([], [])
  else
    (s.users.filter (fun u => ilike u.username ("%" ++ query ++ "%")),
     sortByCreatedDesc (s.posts.filter (fun p => ilike p.caption ("%" ++ query ++ "%"))))

/-- Case-insensitive-substring predicate, written from the specification's
words (for the search refinement claim): the case-folded query occurs as a
contiguous substring of the case-folded subject. -/
def ciSubstr (query subject : String) : Prop :=
  query.data.map lowerChar <:+: subject.data.map lowerChar

instance (query subject : String) : Decidable (ciSubstr query subject) :=
  List.decidableInfix _ _

/-- Number of Follow rows for the ordered pair (follower, followed). -/
def followEdgeCount (s : State) (a b : Nat) : Nat :=
  s.follows.countP (fun f => f.follower_id == a && f.followed_id == b)

/-! Concrete database states used as counterexamples and witnesses. -/

/-- A user row. -/
def exUser1 : User := ⟨1, "alice", "hash1", "bio", "pic"⟩

/-- A second user row. -/
def exUser2 : User := ⟨2, "bob", "hash2", "", ""⟩

/-- Two registered users, nothing else. -/
def exUsersState : State := ⟨[exUser1, exUser2], [], [], [], [], [], [], 3, 0⟩

/-- Two users and one conversation between them. -/
def exConvState : State := ⟨[exUser1, exUser2], [], [], [], [], [⟨3, 1, 2⟩], [], 4, 5⟩

/-- Two users and one post by user 1. -/
def exPostState : State := ⟨[exUser1, exUser2], [⟨3, "img", "caption", 1, 0⟩], [], [], [], [], [], 4, 5⟩

/-- Two users, user 1 follows nobody, and one post authored by user 2. -/
def exFeedState : State := ⟨[exUser1, exUser2], [⟨3, "img", "hello", 2, 0⟩], [], [], [], [], [], 4, 1⟩

/-- One user whose username is the single letter x. -/
def exSearchState : State := ⟨[⟨5, "x", "h", "", ""⟩], [], [], [], [], [], [], 6, 0⟩

/-- A user named Cat with one post captioned about cats. -/
def exCatState : State :=
  ⟨[⟨1, "Cat", "h", "", ""⟩], [⟨2, "img", "Cats are great", 1, 0⟩], [], [], [], [], [], 3, 7⟩

/-- Password verification instance used by concrete witnesses: the stored
hash is compared with the password directly. -/
def verifyEq : String → String → Bool := fun h p => h == p

/-! Theorems. -/

/-- C10: a profile edit always stores the submitted bio; an empty
profile_picture field leaves the stored picture unchanged while a non-empty
one replaces it; id, username and password hash are untouched. -/
theorem edit_profile_frame (u : User) (bioForm pictureForm : String) :
    (edit_profile u bioForm pictureForm).bio = bioForm ∧
    (pictureForm = "" → (edit_profile u bioForm pictureForm).profile_picture = u.profile_picture) ∧
    (pictureForm ≠ "" → (edit_profile u bioForm pictureForm).profile_picture = pictureForm) ∧
    (edit_profile u bioForm pictureForm).id = u.id ∧
    (edit_profile u bioForm pictureForm).username = u.username ∧
    (edit_profile u bioForm pictureForm).password_hash = u.password_hash := by
  by_cases h : pictureForm = "" <;> simp [edit_profile, h]

/-- C10 witness: evaluating the profile edit on a concrete user, once with an
empty and once with a non-empty picture field. -/
theorem edit_profile_frame_witness :
    (edit_profile exUser1 "new bio" "").profile_picture = "pic" ∧
    (edit_profile exUser1 "new bio" "").bio = "new bio" ∧
    (edit_profile exUser1 "b2" "newpic").profile_picture = "newpic" :=
  ⟨(edit_profile_frame exUser1 "new bio" "").2.1 rfl,
   (edit_profile_frame exUser1 "new bio" "").1,
   (edit_profile_frame exUser1 "b2" "newpic").2.2.1 (by decide)⟩

/-- C6: following oneself is rejected with SelfFollowRejected and the state
(in particular the follow-edge set) is unchanged. -/
theorem follow_self_rejected (s : State) (uid : Nat) (h : ∃ u ∈ s.users, u.id = uid) :
    follow_user s uid uid = (some AppError.selfFollowRejected, s) := by
  obtain ⟨u, hu, hid⟩ := h
  have hsome : (s.users.find? (fun v => v.id == uid)).isSome := by
    rw [List.find?_isSome]
    exact ⟨u, hu, by simp [hid]⟩
  unfold follow_user findUserById
  cases hfind : s.users.find? (fun v => v.id == uid) with
  | none => rw [hfind] at hsome; simp at hsome
  | some t =>
    have ht := List.find?_some hfind
    have ht' : t.id = uid := by simpa using ht
    simp [ht']

/-- C6 witness: user 1 attempting to follow themselves in a concrete state. -/
theorem follow_self_rejected_witness :
    follow_user exUsersState 1 1 = (some AppError.selfFollowRejected, exUsersState) :=
  follow_self_rejected exUsersState 1 ⟨exUser1, by decide, by decide⟩

/-- C4 counterexample: a whitespace-only message text (a single space, all of
whose characters are spaces) is accepted by the conversation route — no
EmptyMessage error — and one Message row is appended, contradicting the claim
that whitespace-only text fails and appends nothing. -/
theorem sendMessage_whitespace_accepted :
    (" ").data.all (fun c => c == ' ') = true ∧
    (sendMessage exConvState 3 1 " ").1 = none ∧
    (sendMessage exConvState 3 1 " ").2.messages = [⟨4, 3, 1, " ", 5⟩] := by
  refine ⟨by decide, by decide, by decide⟩

/-- C4 amended: sending fails with EmptyMessage, leaving the state unchanged,
exactly when the text is the empty string; any other text (whitespace-only
included) is appended as one Message row carrying that text and the current
timestamp. -/
theorem sendMessage_spec (s : State) (cid sid : Nat) (text : String) :
    (text = "" → sendMessage s cid sid text = (some AppError.emptyMessage, s)) ∧
    (text ≠ "" →
      (sendMessage s cid sid text).1 = none ∧
      (sendMessage s cid sid text).2.messages =
        s.messages ++ [⟨s.next_id, cid, sid, text, s.now⟩]) := by
  by_cases h : text = "" <;> simp [sendMessage, h]

/-- C4 witness: the empty text is rejected and a non-empty text is appended,
on a concrete conversation. -/
theorem sendMessage_spec_witness :
    sendMessage exConvState 3 1 "" = (some AppError.emptyMessage, exConvState) ∧
    (sendMessage exConvState 3 2 "hi").1 = none :=
  ⟨(sendMessage_spec exConvState 3 1 "").1 rfl,
   ((sendMessage_spec exConvState 3 2 "hi").2 (by decide)).1⟩

/-- C5 counterexample: a whitespace-only comment text (a single space, which
is empty after trimming) is accepted by add_comment — no EmptyComment error —
and one Comment row is appended, contradicting the claim that text empty
after trimming fails and adds nothing. -/
theorem add_comment_whitespace_accepted :
    (" ").data.all (fun c => c == ' ') = true ∧
    (add_comment exPostState 2 3 " ").1 = none ∧
    (add_comment exPostState 2 3 " ").2.comments = [⟨4, " ", 2, 3, 5⟩] := by
  refine ⟨by decide, by decide, by decide⟩

/-- C5 amended: for an existing post, add_comment fails with EmptyComment,
leaving the state unchanged, exactly when the text is the empty string (the
text is not trimmed); any other text is appended as one Comment row carrying
that text. -/
theorem add_comment_spec (s : State) (uid pid : Nat) (text : String)
    (hp : ∃ p ∈ s.posts, p.id = pid) :
    (text = "" → add_comment s uid pid text = (some AppError.emptyComment, s)) ∧
    (text ≠ "" →
      (add_comment s uid pid text).1 = none ∧
      (add_comment s uid pid text).2.comments =
        s.comments ++ [⟨s.next_id, text, uid, pid, s.now⟩]) := by
  obtain ⟨p, hpmem, hpid⟩ := hp
  have hsome : (s.posts.find? (fun q => q.id == pid)).isSome := by
    rw [List.find?_isSome]
    exact ⟨p, hpmem, by simp [hpid]⟩
  unfold add_comment findPostById
  cases hfind : s.posts.find? (fun q => q.id == pid) with
  | none => rw [hfind] at hsome; simp at hsome
  | some q =>
    have hq := List.find?_some hfind
    have hq' : q.id = pid := by simpa using hq
    by_cases h : text = "" <;> simp [h, hq']

/-- Erasing the first element satisfying p removes exactly one p-count. -/
theorem countP_eraseP_of_exists {α : Type} (p : α → Bool) :
    ∀ l : List α, (∃ x ∈ l, p x) → (l.eraseP p).countP p + 1 = l.countP p := by
  intro l
  induction l with
  | nil => rintro ⟨x, hx, -⟩; cases hx
  | cons a l ih =>
    rintro ⟨x, hx, hpx⟩
    by_cases hpa : p a
    · rw [List.eraseP_cons_of_pos hpa, List.countP_cons_of_pos _ _ hpa]
    · rw [List.eraseP_cons_of_neg hpa, List.countP_cons_of_neg _ _ hpa,
          List.countP_cons_of_neg _ _ hpa]
      rcases List.mem_cons.mp hx with heq | hx'
      · subst heq; exact absurd hpx hpa
      · exact ih ⟨x, hx', hpx⟩

/-- Erasing the first element satisfying q does not change the p-count when
no element can satisfy both p and q. -/
theorem countP_eraseP_of_incompatible {α : Type} (p q : α → Bool)
    (hpq : ∀ x, q x = true → p x = false) :
    ∀ l : List α, (l.eraseP q).countP p = l.countP p := by
  intro l
  induction l with
  | nil => rfl
  | cons a l ih =>
    by_cases hqa : q a
    · rw [List.eraseP_cons_of_pos hqa, List.countP_cons_of_neg]
      simp [hpq a hqa]
    · rw [List.eraseP_cons_of_neg hqa]
      by_cases hpa : p a
      · rw [List.countP_cons_of_pos _ _ hpa, List.countP_cons_of_pos _ _ hpa, ih]
      · rw [List.countP_cons_of_neg _ _ hpa, List.countP_cons_of_neg _ _ hpa, ih]

/-- `like_post` never touches the post table, whether it 404s, likes or
unlikes. -/
theorem posts_like_post (s : State) (u p : Nat) : (like_post s u p).2.posts = s.posts := by
  unfold like_post
  split
  · rfl
  · split <;> rfl

/-- Toggling the pair (u, p) for an existing post p flips its like-row count
between 0 and (count - 1)/1. -/
theorem likeCount_like_post_self (s : State) (u p : Nat)
    (hp : ∃ q ∈ s.posts, q.id = p) :
    likeCount (like_post s u p).2 u p =
      if likeCount s u p = 0 then 1 else likeCount s u p - 1 := by
  obtain ⟨post0, hpmem, hpid0⟩ := hp
  have hsome : (s.posts.find? (fun q => q.id == p)).isSome := by
    rw [List.find?_isSome]
    exact ⟨post0, hpmem, by simp [hpid0]⟩
  unfold like_post
  cases hfindp : findPostById s p with
  | none =>
    rw [show findPostById s p = s.posts.find? (fun q => q.id == p) from rfl] at hfindp
    rw [hfindp] at hsome
    simp at hsome
  | some post =>
    have hpid : post.id = p := by
      simpa using List.find?_some
        (show s.posts.find? (fun q => q.id == p) = some post from hfindp)
    simp only []
    rw [hpid]
    unfold likeCount
    cases hfind : s.likes.find? (fun l => l.user_id == u && l.post_id == p) with
    | none =>
      have hall := List.find?_eq_none.mp hfind
      have hzero : s.likes.countP (fun l => l.user_id == u && l.post_id == p) = 0 :=
        List.countP_eq_zero.mpr hall
      simp [List.countP_append, hzero]
    | some x =>
      have hx := List.find?_some hfind
      have hmem := List.mem_of_find?_eq_some hfind
      have hpos : 0 < s.likes.countP (fun l => l.user_id == u && l.post_id == p) :=
        List.countP_pos_iff.mpr ⟨x, hmem, hx⟩
      have herase := countP_eraseP_of_exists
        (fun l => l.user_id == u && l.post_id == p) s.likes ⟨x, hmem, hx⟩
      simp only []
      rw [if_neg (by omega)]
      omega

/-- Toggling a different pair — or a missing post — leaves the like-row
count of (u, p) unchanged. -/
theorem likeCount_like_post_other (s : State) (u p u' p' : Nat)
    (h : ¬(u' = u ∧ p' = p)) :
    likeCount (like_post s u' p').2 u p = likeCount s u p := by
  unfold like_post
  cases hfindp : findPostById s p' with
  | none => rfl
  | some post =>
    have hpid : post.id = p' := by
      simpa using List.find?_some
        (show s.posts.find? (fun q => q.id == p') = some post from hfindp)
    simp only []
    rw [hpid]
    unfold likeCount
    cases hfind : s.likes.find? (fun l => l.user_id == u' && l.post_id == p') with
    | none =>
      have hnew : ((⟨s.next_id, u', p', s.now⟩ : Like).user_id == u &&
          (⟨s.next_id, u', p', s.now⟩ : Like).post_id == p) = false := by
        simp only [Bool.and_eq_false_iff, beq_eq_false_iff_ne]
        by_cases hu : u' = u
        · exact Or.inr (fun hp' => h ⟨hu, hp'⟩)
        · exact Or.inl hu
      simp [List.countP_append, hnew]
    | some x =>
      exact countP_eraseP_of_incompatible _ _
        (fun y hy => by
          simp only [Bool.and_eq_true, beq_iff_eq] at hy
          simp only [Bool.and_eq_false_iff, beq_eq_false_iff_ne]
          by_cases hu : u' = u
          · exact Or.inr (by rw [hy.2]; exact fun hp' => h ⟨hu, hp'⟩)
          · exact Or.inl (by rw [hy.1]; exact hu))
        s.likes

/-- Running a list of toggles from a state containing the post p where the
pair (u, p) has at most one like row yields count
(initial + number of (u, p) toggles) mod 2. -/
theorem runToggles_likeCount (u p : Nat) :
    ∀ (ops : List (Nat × Nat)) (s : State), (∃ q ∈ s.posts, q.id = p) →
      likeCount s u p ≤ 1 →
      likeCount (runToggles s ops) u p = (likeCount s u p + ops.count (u, p)) % 2 := by
  intro ops
  induction ops with
  | nil =>
    intro s _ hs
    simp only [runToggles, List.foldl_nil, List.count_nil, Nat.add_zero]
    omega
  | cons q ops ih =>
    intro s hp hs
    have hstep : runToggles s (q :: ops) = runToggles (like_post s q.1 q.2).2 ops := rfl
    have hp' : ∃ r ∈ (like_post s q.1 q.2).2.posts, r.id = p := by
      rw [posts_like_post]
      exact hp
    by_cases hq : q = (u, p)
    · subst hq
      have hself := likeCount_like_post_self s u p hp
      have hle : likeCount (like_post s u p).2 u p ≤ 1 := by rw [hself]; split <;> omega
      rw [hstep, ih _ hp' hle, hself]
      have hcnt : ((u, p) :: ops).count (u, p) = ops.count (u, p) + 1 := by
        simp [List.count_cons]
      rw [hcnt]
      split <;> omega
    · have hother := likeCount_like_post_other s u p q.1 q.2
        (by
          intro hc
          exact hq (by cases q; simp_all))
      have hle : likeCount (like_post s q.1 q.2).2 u p ≤ 1 := by rw [hother]; omega
      rw [hstep, ih _ hp' hle, hother]
      have hcnt : (q :: ops).count (u, p) = ops.count (u, p) := by
        simp [List.count_cons, hq]
      rw [hcnt]

/-- C2: for an existing post p, from a state with no Like row for (u, p), an
even number of toggleLike(u, p) calls (interleaved with toggles of any other
pairs, existing or not) leaves no Like row for the pair and an odd number
leaves exactly one; at every intermediate state the pair has at most one
Like row. -/
theorem toggle_like_spec (s : State) (u p : Nat) (ops : List (Nat × Nat))
    (hp : ∃ q ∈ s.posts, q.id = p) (h0 : likeCount s u p = 0) :
    (Even (ops.count (u, p)) → likeCount (runToggles s ops) u p = 0) ∧
    (Odd (ops.count (u, p)) → likeCount (runToggles s ops) u p = 1) ∧
    (∀ n, likeCount (runToggles s (ops.take n)) u p ≤ 1) := by
  have key : ∀ ops' : List (Nat × Nat),
      likeCount (runToggles s ops') u p = (ops'.count (u, p)) % 2 := by
    intro ops'
    have h := runToggles_likeCount u p ops' s hp (by omega)
    rwa [h0, Nat.zero_add] at h
  refine ⟨?_, ?_, ?_⟩
  · intro he
    rw [key, ← Nat.even_iff.mp he]
  · intro ho
    rw [key, ← Nat.odd_iff.mp ho]
  · intro n
    rw [key]
    omega

/-- C2 witness: three toggles by user 2 of the existing post 3 from a
like-free state leave exactly one Like row. -/
theorem toggle_like_spec_witness :
    likeCount (runToggles exPostState [(2, 3), (2, 3), (2, 3)]) 2 3 = 1 :=
  (toggle_like_spec exPostState 2 3 [(2, 3), (2, 3), (2, 3)]
    ⟨⟨3, "img", "caption", 1, 0⟩, by decide, by decide⟩ (by decide)).2.1 (by decide)

/-- One Follow edge is present for (a, b) iff the edge count is positive. -/
theorem is_following_iff (s : State) (a b : Nat) :
    is_following s a b = true ↔ 0 < followEdgeCount s a b := by
  unfold is_following followEdgeCount
  rw [List.find?_isSome, List.countP_pos_iff]

/-- `User.follow` makes the (a, b) edge count 1 when it was 0, otherwise
leaves it unchanged. -/
theorem followEdgeCount_userFollow (s : State) (a b : Nat) :
    followEdgeCount (userFollow s a b) a b =
      if followEdgeCount s a b = 0 then 1 else followEdgeCount s a b := by
  unfold userFollow
  cases h : is_following s a b with
  | true =>
    have hpos := (is_following_iff s a b).mp h
    simp only [if_true]
    rw [if_neg (by omega)]
  | false =>
    have hzero : followEdgeCount s a b = 0 := by
      by_contra hne
      have := (is_following_iff s a b).mpr (by omega)
      simp [this] at h
    simp only [Bool.false_eq_true, if_false]
    rw [if_pos hzero]
    unfold followEdgeCount at hzero ⊢
    simp [List.countP_append, hzero]

/-- `User.follow` does not touch the user table. -/
theorem users_userFollow (s : State) (a b : Nat) : (userFollow s a b).users = s.users := by
  unfold userFollow
  split <;> rfl

/-- When the target user exists and differs from the actor, the follow route
succeeds and delegates to `User.follow`. -/
theorem follow_user_of_exists (s : State) (a b : Nat) (hab : a ≠ b)
    (hb : ∃ u ∈ s.users, u.id = b) :
    follow_user s a b = (none, userFollow s a b) := by
  obtain ⟨u, hu, hid⟩ := hb
  have hsome : (s.users.find? (fun v => v.id == b)).isSome := by
    rw [List.find?_isSome]
    exact ⟨u, hu, by simp [hid]⟩
  unfold follow_user findUserById
  cases hfind : s.users.find? (fun v => v.id == b) with
  | none => rw [hfind] at hsome; simp at hsome
  | some t =>
    have ht := List.find?_some hfind
    have ht' : t.id = b := by simpa using ht
    have hne : (t.id == a) = false := by
      rw [beq_eq_false_iff_ne, ht']
      exact fun h => hab h.symm
    simp [hne, ht']
    exact fun h => hab h.symm

/-- When the target user exists and differs from the actor, the unfollow
route succeeds and delegates to `User.unfollow`. -/
theorem unfollow_user_of_exists (s : State) (a b : Nat) (hab : a ≠ b)
    (hb : ∃ u ∈ s.users, u.id = b) :
    unfollow_user s a b = (none, userUnfollow s a b) := by
  obtain ⟨u, hu, hid⟩ := hb
  have hsome : (s.users.find? (fun v => v.id == b)).isSome := by
    rw [List.find?_isSome]
    exact ⟨u, hu, by simp [hid]⟩
  unfold unfollow_user findUserById
  cases hfind : s.users.find? (fun v => v.id == b) with
  | none => rw [hfind] at hsome; simp at hsome
  | some t =>
    have ht := List.find?_some hfind
    have ht' : t.id = b := by simpa using ht
    have hne : (t.id == a) = false := by
      rw [beq_eq_false_iff_ne, ht']
      exact fun h => hab h.symm
    simp [hne, ht']
    exact fun h => hab h.symm

/-- C7: for distinct existing users, following twice succeeds both times, the
second call changes nothing, exactly one Follow edge for (a, b) remains, and
unfollowing with no edge present is a silent no-op. -/
theorem follow_twice_spec (s : State) (a b : Nat) (hab : a ≠ b)
    (hb : ∃ u ∈ s.users, u.id = b)
    (hcount : followEdgeCount s a b ≤ 1) :
    (follow_user s a b).1 = none ∧
    (follow_user (follow_user s a b).2 a b).1 = none ∧
    (follow_user (follow_user s a b).2 a b).2 = (follow_user s a b).2 ∧
    followEdgeCount (follow_user (follow_user s a b).2 a b).2 a b = 1 ∧
    (followEdgeCount s a b = 0 → unfollow_user s a b = (none, s)) := by
  have h1 := follow_user_of_exists s a b hab hb
  have hb1 : ∃ u ∈ (userFollow s a b).users, u.id = b := by
    rw [users_userFollow]; exact hb
  have h2 := follow_user_of_exists (userFollow s a b) a b hab hb1
  have hc1 : followEdgeCount (userFollow s a b) a b = 1 := by
    rw [followEdgeCount_userFollow]
    split <;> omega
  have hc2 : followEdgeCount (userFollow (userFollow s a b) a b) a b = 1 := by
    rw [followEdgeCount_userFollow, hc1]
    simp
  have hstable : ∀ s' : State, is_following s' a b = true → userFollow s' a b = s' := by
    intro s' h
    unfold userFollow
    rw [if_pos h]
  have hfix : userFollow (userFollow s a b) a b = userFollow s a b :=
    hstable (userFollow s a b) ((is_following_iff (userFollow s a b) a b).mpr (by omega))
  have e2 : (follow_user s a b).2 = userFollow s a b := by rw [h1]
  refine ⟨by rw [h1], ?_, ?_, ?_, ?_⟩
  · rw [e2, h2]
  · rw [e2, h2]; exact hfix
  · rw [e2, h2]; exact hc2
  · intro hzero
    have hall : ∀ f ∈ s.follows, ¬((fun f => f.follower_id == a && f.followed_id == b) f = true) :=
      List.countP_eq_zero.mp hzero
    rw [unfollow_user_of_exists s a b hab hb]
    unfold userUnfollow
    rw [List.eraseP_of_forall_not hall]

/-- C7 witness: following user 2 twice from a clean two-user state leaves one
edge; unfollowing with no edge is a no-op. -/
theorem follow_twice_spec_witness :
    followEdgeCount (follow_user (follow_user exUsersState 1 2).2 1 2).2 1 2 = 1 ∧
    unfollow_user exUsersState 1 2 = (none, exUsersState) :=
  ⟨(follow_twice_spec exUsersState 1 2 (by decide) ⟨exUser2, by decide, by decide⟩
      (by decide)).2.2.2.1,
   (follow_twice_spec exUsersState 1 2 (by decide) ⟨exUser2, by decide, by decide⟩
      (by decide)).2.2.2.2 (by decide)⟩

/-- The participant filter of the conversation route is symmetric in the two
user ids. -/
theorem convMatches_symm (c : Conversation) (a b : Nat) :
    convMatches c a b = convMatches c b a := by
  unfold convMatches
  exact Bool.or_comm _ _

/-- Reduction of the lookup-or-create when the lookup succeeds. -/
theorem getOrCreate_of_find_some (s : State) (a b : Nat) (c : Conversation)
    (h : s.conversations.find? (fun c => convMatches c a b) = some c) :
    getOrCreateConversation s a b = (c, s) := by
  unfold getOrCreateConversation
  rw [h]

/-- Reduction of the lookup-or-create when the lookup fails. -/
theorem getOrCreate_of_find_none (s : State) (a b : Nat)
    (h : s.conversations.find? (fun c => convMatches c a b) = none) :
    getOrCreateConversation s a b =
      (⟨s.next_id, a, b⟩,
       { s with conversations := s.conversations ++ [⟨s.next_id, a, b⟩],
                next_id := s.next_id + 1 }) := by
  unfold getOrCreateConversation
  rw [h]

/-- After getting-or-creating the conversation for (a, b), getting-or-creating
for (b, a) returns the very same conversation and changes nothing. -/
theorem getOrCreate_swap (s : State) (a b : Nat) :
    getOrCreateConversation (getOrCreateConversation s a b).2 b a =
      ((getOrCreateConversation s a b).1, (getOrCreateConversation s a b).2) := by
  have hpred : (fun c => convMatches c b a) = (fun c => convMatches c a b) :=
    funext fun c => convMatches_symm c b a
  cases hfind : s.conversations.find? (fun c => convMatches c a b) with
  | some c =>
    have hswap : s.conversations.find? (fun c => convMatches c b a) = some c := by
      rw [hpred, hfind]
    rw [getOrCreate_of_find_some s a b c hfind]
    exact getOrCreate_of_find_some s b a c hswap
  | none =>
    have h1 := getOrCreate_of_find_none s a b hfind
    have hnone : s.conversations.find? (fun c => convMatches c b a) = none := by
      rw [hpred, hfind]
    have hfind2 :
        (s.conversations ++ [(⟨s.next_id, a, b⟩ : Conversation)]).find?
          (fun c => convMatches c b a) = some ⟨s.next_id, a, b⟩ := by
      rw [List.find?_append, hnone]
      simp [List.find?, convMatches]
    rw [h1]
    exact getOrCreate_of_find_some _ b a _ hfind2

/-- One lookup-or-create step preserves the at-most-one-conversation-per-
unordered-pair invariant. -/
theorem convPairCount_getOrCreate (s : State) (a b : Nat)
    (hinv : ∀ x y, convPairCount s x y ≤ 1) :
    ∀ x y, convPairCount (getOrCreateConversation s a b).2 x y ≤ 1 := by
  intro x y
  cases hfind : s.conversations.find? (fun c => convMatches c a b) with
  | some c =>
    rw [getOrCreate_of_find_some s a b c hfind]
    exact hinv x y
  | none =>
    rw [getOrCreate_of_find_none s a b hfind]
    show (s.conversations ++ [(⟨s.next_id, a, b⟩ : Conversation)]).countP
      (fun c => convMatches c x y) ≤ 1
    rw [List.countP_append]
    by_cases hm : convMatches ⟨s.next_id, a, b⟩ x y
    · have hall := List.find?_eq_none.mp hfind
      have hzero : s.conversations.countP (fun c => convMatches c x y) = 0 := by
        apply List.countP_eq_zero.mpr
        intro c hc hcxy
        apply hall c hc
        unfold convMatches at hm hcxy ⊢
        simp only [Bool.or_eq_true, Bool.and_eq_true, beq_iff_eq] at hm hcxy ⊢
        rcases hm with ⟨rfl, rfl⟩ | ⟨rfl, rfl⟩
        · exact hcxy
        · tauto
      simp [List.countP_cons, hm, hzero]
    · simp only [List.countP_cons, List.countP_nil, hm, if_false]
      simpa using hinv x y

/-- Any sequence of lookup-or-create calls preserves the invariant. -/
theorem runConversations_inv (ops : List (Nat × Nat)) :
    ∀ s : State, (∀ x y, convPairCount s x y ≤ 1) →
      ∀ x y, convPairCount (runConversations s ops) x y ≤ 1 := by
  induction ops with
  | nil =>
    intro s hinv
    simpa [runConversations] using hinv
  | cons q ops ih =>
    intro s hinv
    exact ih _ (convPairCount_getOrCreate s q.1 q.2 hinv)

/-- C3: getOrCreateConversation(a, b) followed by getOrCreateConversation(b, a)
returns the same conversation row and changes nothing, and any sequence of
such calls keeps at most one Conversation row per unordered user pair,
whichever participant is stored as user1. -/
theorem conversation_spec (s : State) (a b : Nat) (ops : List (Nat × Nat))
    (hinv : ∀ x y, convPairCount s x y ≤ 1) :
    (getOrCreateConversation (getOrCreateConversation s a b).2 b a =
      ((getOrCreateConversation s a b).1, (getOrCreateConversation s a b).2)) ∧
    (∀ x y, convPairCount (runConversations s ops) x y ≤ 1) :=
  ⟨getOrCreate_swap s a b, runConversations_inv ops s hinv⟩

/-- C3 witness: from the empty database, creating the (1, 2) conversation and
then asking for (2, 1), plus the invariant after both calls. -/
theorem conversation_spec_witness :
    (getOrCreateConversation (getOrCreateConversation State.empty 1 2).2 2 1 =
      ((getOrCreateConversation State.empty 1 2).1,
       (getOrCreateConversation State.empty 1 2).2)) ∧
    convPairCount (runConversations State.empty [(1, 2), (2, 1)]) 1 2 ≤ 1 :=
  ⟨(conversation_spec State.empty 1 2 [(1, 2), (2, 1)]
      (fun x y => by simp [convPairCount, State.empty])).1,
   (conversation_spec State.empty 1 2 [(1, 2), (2, 1)]
      (fun x y => by simp [convPairCount, State.empty])).2 1 2⟩

/-- Reduction of the login route when no user has the submitted username. -/
theorem login_of_find_none (verify : String → String → Bool) (s : State) (un pw : String)
    (h : findUserByName s un = none) :
    login verify s un pw = .error .invalidCredentials := by
  unfold login
  rw [h]

/-- Reduction of the login route when a user row carries the submitted
username. -/
theorem login_of_find_some (verify : String → String → Bool) (s : State) (un pw : String)
    (u : User) (h : findUserByName s un = some u) :
    login verify s un pw =
      if verify u.password_hash pw then .ok u else .error .invalidCredentials := by
  unfold login
  rw [h]

/-- C9: with unique usernames, login returns a user exactly when that user row
exists under the submitted username and the password verifies against its
stored hash; every other input produces the identical InvalidCredentials
error, so unknown-username and wrong-password failures are indistinguishable. -/
theorem login_spec (verify : String → String → Bool) (s : State) (un pw : String)
    (huniq : (s.users.map User.username).Nodup) :
    (∀ u : User, login verify s un pw = .ok u ↔
      (u ∈ s.users ∧ u.username = un ∧ verify u.password_hash pw = true)) ∧
    (login verify s un pw = .error .invalidCredentials ↔
      ¬ ∃ u ∈ s.users, u.username = un ∧ verify u.password_hash pw = true) ∧
    (∀ un' pw' : String, login verify s un' pw' = .error .invalidCredentials →
      login verify s un pw = .error .invalidCredentials →
      login verify s un pw = login verify s un' pw') := by
  have hinj := List.inj_on_of_nodup_map huniq
  cases hfind : findUserByName s un with
  | none =>
    have hl := login_of_find_none verify s un pw hfind
    have hall : ∀ u ∈ s.users, ¬ ((u.username == un) = true) := List.find?_eq_none.mp hfind
    refine ⟨?_, ?_, ?_⟩
    · intro u
      constructor
      · intro h
        rw [hl] at h
        exact absurd h (by simp)
      · rintro ⟨hu, hname, -⟩
        exact absurd (by simp [hname]) (hall u hu)
    · rw [hl]
      constructor
      · rintro - ⟨u, hu, hname, -⟩
        exact (hall u hu) (by simp [hname])
      · intro _
        rfl
    · intro un' pw' h' h
      rw [h, h']
  | some u0 =>
    have hl := login_of_find_some verify s un pw u0 hfind
    have hmem : u0 ∈ s.users := List.mem_of_find?_eq_some hfind
    have hname : u0.username = un := by simpa using List.find?_some hfind
    by_cases hv : verify u0.password_hash pw = true
    · have hl' : login verify s un pw = .ok u0 := by rw [hl, if_pos hv]
      refine ⟨?_, ?_, ?_⟩
      · intro u
        constructor
        · intro h
          rw [hl'] at h
          have : u0 = u := by simpa using h
          subst this
          exact ⟨hmem, hname, hv⟩
        · rintro ⟨hu, hun, hver⟩
          have : u = u0 := hinj hu hmem (by rw [hun, hname])
          subst this
          exact hl'
      · rw [hl']
        constructor
        · intro h
          exact absurd h (by simp)
        · intro hne
          exact absurd ⟨u0, hmem, hname, hv⟩ hne
      · intro un' pw' h' h
        rw [h, h']
    · have hl' : login verify s un pw = .error .invalidCredentials := by rw [hl, if_neg hv]
      refine ⟨?_, ?_, ?_⟩
      · intro u
        constructor
        · intro h
          rw [hl'] at h
          exact absurd h (by simp)
        · rintro ⟨hu, hun, hver⟩
          have : u = u0 := hinj hu hmem (by rw [hun, hname])
          subst this
          exact absurd hver hv
      · rw [hl']
        constructor
        · rintro - ⟨u, hu, hun, hver⟩
          have : u = u0 := hinj hu hmem (by rw [hun, hname])
          subst this
          exact hv hver
        · intro _
          rfl
      · intro un' pw' h' h
        rw [h, h']

/-- C9 witness: logging in with the right and with a wrong password on a
concrete user table. -/
theorem login_spec_witness :
    login verifyEq exUsersState "alice" "hash1" = .ok exUser1 ∧
    login verifyEq exUsersState "alice" "wrong" = .error .invalidCredentials ∧
    login verifyEq exUsersState "nobody" "pw" = .error .invalidCredentials :=
  ⟨((login_spec verifyEq exUsersState "alice" "hash1" (by decide)).1 exUser1).mpr
      ⟨by decide, by decide, by decide⟩,
   (login_spec verifyEq exUsersState "alice" "wrong" (by decide)).2.1.mpr (by decide),
   (login_spec verifyEq exUsersState "nobody" "pw" (by decide)).2.1.mpr (by decide)⟩

/-- C1 counterexample: in a state where user 1 follows nobody, the feed page
served at the index route contains the post authored by user 2 — an
unfollowed non-self author — even though get_followed_posts for user 1 is
empty: the route paginates all posts and never filters by the follow graph. -/
theorem index_shows_unfollowed_post :
    index exFeedState 1 = [⟨3, "img", "hello", 2, 0⟩] ∧
    is_following exFeedState 1 2 = false ∧
    (⟨3, "img", "hello", 2, 0⟩ : Post).user_id ≠ 1 ∧
    get_followed_posts exFeedState 1 = [] := by
  refine ⟨by decide, by decide, by decide, by decide⟩

/-- An element of any list sits inside the 10-wide page that covers its
index. -/
theorem getElem_mem_page {α : Type} (l : List α) (i : Nat) (h : i < l.length) :
    l[i] ∈ (l.drop ((i / 10) * 10)).take 10 := by
  have hr : i % 10 < 10 := Nat.mod_lt _ (by omega)
  have hlen : i % 10 < ((l.drop ((i / 10) * 10)).take 10).length := by
    rw [List.length_take, List.length_drop]
    omega
  have he : ((l.drop ((i / 10) * 10)).take 10)[i % 10] = l[i] := by
    rw [List.getElem_take, List.getElem_drop]
    congr 1
    omega
  exact he ▸ List.getElem_mem hlen

/-- C1 amended: the helper get_followed_posts(u) returns exactly the posts
authored by u or by users u follows, each exactly once, ordered by creation
timestamp descending; the feed route itself returns pages of at most 10
posts, ordered by creation timestamp descending, drawn from all posts — every
post of every user appears on some page, with no restriction to followed
authors. -/
theorem feed_spec (s : State) (u page : Nat) :
    (∀ p : Post, p ∈ get_followed_posts s u ↔
      (p ∈ s.posts ∧ (p.user_id = u ∨
        s.follows.any (fun f => f.followed_id == p.user_id && f.follower_id == u) = true))) ∧
    (get_followed_posts s u).Nodup ∧
    (get_followed_posts s u).Sorted postLe ∧
    (index s page).Sorted postLe ∧
    (index s page).length ≤ 10 ∧
    (∀ p ∈ index s page, p ∈ s.posts) ∧
    (∀ p ∈ s.posts, ∃ pg : Nat, p ∈ index s pg) := by
  have hsub : ∀ pg : Nat, List.Sublist (index s pg) (sortByCreatedDesc s.posts) := fun pg =>
    (List.take_sublist _ _).trans (List.drop_sublist _ _)
  have hperm := List.perm_insertionSort postLe s.posts
  have hsorted := List.sorted_insertionSort postLe s.posts
  refine ⟨?_, ?_, ?_, ?_, ?_, ?_, ?_⟩
  · intro p
    unfold get_followed_posts sortByCreatedDesc
    rw [(List.perm_insertionSort postLe _).mem_iff, List.mem_dedup, List.mem_append,
        List.mem_filter, List.mem_filter]
    simp only [beq_iff_eq]
    tauto
  · unfold get_followed_posts sortByCreatedDesc
    exact (List.perm_insertionSort postLe _).nodup_iff.mpr (List.nodup_dedup _)
  · exact List.sorted_insertionSort postLe _
  · exact (hsorted : (sortByCreatedDesc s.posts).Pairwise postLe).sublist (hsub page)
  · exact le_trans (List.length_take_le _ _) (le_refl 10)
  · intro p hp
    exact hperm.subset ((hsub page).subset hp)
  · intro p hp
    have hp' : p ∈ sortByCreatedDesc s.posts := hperm.mem_iff.mpr hp
    obtain ⟨i, hi⟩ := List.mem_iff_get.mp hp'
    refine ⟨i.1 / 10 + 1, ?_⟩
    have hmax : max (i.1 / 10 + 1) 1 - 1 = i.1 / 10 := by
      rw [Nat.max_eq_left (Nat.le_add_left 1 (i.1 / 10))]
      omega
    unfold index
    rw [hmax]
    have hmem := getElem_mem_page (sortByCreatedDesc s.posts) i.1 i.2
    rw [List.get_eq_getElem] at hi
    rwa [hi] at hmem

/-- C1 witness: on a concrete state the feed page is within the size bound
and get_followed_posts of user 1 contains nothing (user 1 authored nothing
and follows nobody). -/
theorem feed_spec_witness :
    (index exFeedState 1).length ≤ 10 ∧
    ¬ ((⟨3, "img", "hello", 2, 0⟩ : Post) ∈ get_followed_posts exFeedState 1) :=
  ⟨(feed_spec exFeedState 1 1).2.2.2.2.1,
   fun hmem => by
    have := ((feed_spec exFeedState 1 1).1 ⟨3, "img", "hello", 2, 0⟩).mp hmem
    revert this
    decide⟩

/-- Unfolding of the matcher for a leading percent against the empty
subject. -/
theorem likeMatch_pct_nil (p : List Char) : likeMatch ('%' :: p) [] = likeMatch p [] := by
  rw [likeMatch]
  simp

/-- Unfolding of the matcher for a leading percent against a non-empty
subject: either the percent matches nothing, or it swallows one character. -/
theorem likeMatch_pct_cons (p s : List Char) (c : Char) :
    likeMatch ('%' :: p) (c :: s) = (likeMatch p (c :: s) || likeMatch ('%' :: p) s) := by
  rw [likeMatch]

/-- Unfolding of the matcher for a leading ordinary character against the
empty subject. -/
theorem likeMatch_lit_nil (c : Char) (p : List Char)
    (h1 : c ≠ '%') (h2 : c ≠ '_') (h3 : c ≠ '\\') :
    likeMatch (c :: p) [] = false := by
  rw [likeMatch] <;> simp_all

/-- Unfolding of the matcher for a leading ordinary character against a
non-empty subject. -/
theorem likeMatch_lit_cons (c d : Char) (p s : List Char)
    (h1 : c ≠ '%') (h2 : c ≠ '_') (h3 : c ≠ '\\') :
    likeMatch (c :: p) (d :: s) = (d == c && likeMatch p s) := by
  rw [likeMatch] <;> simp_all

/-- A lone percent matches every subject. -/
theorem likeMatch_pct_always (s : List Char) : likeMatch ['%'] s = true := by
  induction s with
  | nil => simp [likeMatch]
  | cons c s ih =>
    rw [likeMatch_pct_cons, ih]
    simp

/-- A pattern with a leading percent matches s iff the rest of the pattern
matches some suffix of s. -/
theorem likeMatch_pct_iff (p : List Char) (s : List Char) :
    likeMatch ('%' :: p) s = true ↔ ∃ n, likeMatch p (List.drop n s) = true := by
  induction s with
  | nil =>
    rw [likeMatch_pct_nil]
    constructor
    · intro h
      exact ⟨0, h⟩
    · rintro ⟨n, hn⟩
      rwa [List.drop_nil] at hn
  | cons c s ih =>
    rw [likeMatch_pct_cons, Bool.or_eq_true]
    constructor
    · rintro (h | h)
      · exact ⟨0, h⟩
      · obtain ⟨n, hn⟩ := ih.mp h
        exact ⟨n + 1, hn⟩
    · rintro ⟨n, hn⟩
      cases n with
      | zero => exact Or.inl hn
      | succ n => exact Or.inr (ih.mpr ⟨n, hn⟩)

/-- A wildcard-free pattern followed by a percent matches s iff the
wildcard-free part is a prefix of s. -/
theorem likeMatch_lit_iff :
    ∀ q : List Char, (∀ c ∈ q, c ≠ '%' ∧ c ≠ '_' ∧ c ≠ '\\') →
      ∀ s : List Char, (likeMatch (q ++ ['%']) s = true ↔ q <+: s) := by
  intro q
  induction q with
  | nil =>
    intro _ s
    simp [likeMatch_pct_always s, List.nil_prefix]
  | cons c q ih =>
    intro hq s
    have hc := hq c (List.mem_cons_self c q)
    have ihs := ih (fun c' h => hq c' (List.mem_cons_of_mem c h)) s
    cases s with
    | nil =>
      rw [List.cons_append, likeMatch_lit_nil c _ hc.1 hc.2.1 hc.2.2]
      simp
    | cons d s =>
      rw [List.cons_append, likeMatch_lit_cons c d _ s hc.1 hc.2.1 hc.2.2,
          List.cons_prefix_cons, Bool.and_eq_true, beq_iff_eq,
          ih (fun c' h => hq c' (List.mem_cons_of_mem c h)) s]
      constructor
      · rintro ⟨h, hh⟩
        exact ⟨h.symm, hh⟩
      · rintro ⟨h, hh⟩
        exact ⟨h.symm, hh⟩

/-- A list is a contiguous substring of s iff it is a prefix of some suffix
of s. -/
theorem substr_iff_exists_drop {α : Type} (q s : List α) :
    q <:+: s ↔ ∃ n, q <+: List.drop n s := by
  constructor
  · rintro ⟨t, u, rfl⟩
    refine ⟨t.length, ?_⟩
    rw [List.append_assoc, List.drop_left]
    exact ⟨u, rfl⟩
  · rintro ⟨n, u, hu⟩
    refine ⟨List.take n s, u, ?_⟩
    rw [List.append_assoc, hu, List.take_append_drop]

/-- Value of `Char.ofNat` on code points below the surrogate range. -/
theorem toNat_ofNat_lt (n : Nat) (h : n < 55296) : (Char.ofNat n).toNat = n := by
  unfold Char.ofNat
  rw [dif_pos (Or.inl h)]
  unfold Char.ofNatAux Char.toNat
  rfl

/-- Characters with equal code points are equal. -/
theorem char_eq_of_toNat_eq {c d : Char} (h : c.toNat = d.toNat) : c = d := by
  cases c with
  | mk v hv =>
    cases d with
    | mk w hw =>
      have : v = w := UInt32.ext h
      subst this
      rfl

/-- Code point of the case-folded character. -/
theorem toNat_lowerChar (c : Char) :
    (lowerChar c).toNat =
      if 65 ≤ c.toNat ∧ c.toNat ≤ 90 then c.toNat + 32 else c.toNat := by
  unfold lowerChar
  split
  · rename_i h
    rw [toNat_ofNat_lt _ (by omega)]
  · rfl

/-- Case folding neither produces nor destroys the LIKE metacharacters
(code points 37, 92, 95 are outside the folded range 97-122). -/
theorem lowerChar_eq_meta_iff (c d : Char)
    (hd : d.toNat = 37 ∨ d.toNat = 92 ∨ d.toNat = 95) :
    lowerChar c = d ↔ c = d := by
  constructor
  · intro h
    have ht : (lowerChar c).toNat = d.toNat := by rw [h]
    rw [toNat_lowerChar] at ht
    by_cases hc : 65 ≤ c.toNat ∧ c.toNat ≤ 90
    · rw [if_pos hc] at ht
      exfalso
      omega
    · rw [if_neg hc] at ht
      exact char_eq_of_toNat_eq ht
  · intro h
    subst h
    unfold lowerChar
    rw [if_neg (by omega)]

/-- Case folding a metacharacter-free pattern keeps it metacharacter-free. -/
theorem map_lowerChar_meta_free (q : List Char)
    (hq : ∀ c ∈ q, c ≠ '%' ∧ c ≠ '_' ∧ c ≠ '\\') :
    ∀ c ∈ q.map lowerChar, c ≠ '%' ∧ c ≠ '_' ∧ c ≠ '\\' := by
  intro c hc
  obtain ⟨c0, hc0, rfl⟩ := List.mem_map.mp hc
  obtain ⟨h1, h2, h3⟩ := hq c0 hc0
  refine ⟨?_, ?_, ?_⟩
  · exact fun h => h1 ((lowerChar_eq_meta_iff c0 '%' (Or.inl (by decide))).mp h)
  · exact fun h => h2 ((lowerChar_eq_meta_iff c0 '_' (Or.inr (Or.inr (by decide)))).mp h)
  · exact fun h => h3 ((lowerChar_eq_meta_iff c0 '\\' (Or.inr (Or.inl (by decide)))).mp h)

/-- For a query without LIKE metacharacters, the route's
`ILIKE '%query%'` test coincides with case-insensitive substring
containment. -/
theorem ilike_iff_ciSubstr (subject query : String)
    (hmeta : ∀ c ∈ query.data, c ≠ '%' ∧ c ≠ '_' ∧ c ≠ '\\') :
    ilike subject ("%" ++ query ++ "%") = true ↔ ciSubstr query subject := by
  unfold ilike ciSubstr
  have hdata : ("%" ++ query ++ "%").data = '%' :: (query.data ++ ['%']) := by
    rw [String.data_append, String.data_append]
    rfl
  rw [hdata, List.map_cons, List.map_append]
  rw [show lowerChar '%' = '%' from by decide,
      show List.map lowerChar ['%'] = ['%'] from by decide]
  rw [likeMatch_pct_iff]
  constructor
  · rintro ⟨n, hn⟩
    rw [likeMatch_lit_iff _ (map_lowerChar_meta_free _ hmeta) _] at hn
    exact (substr_iff_exists_drop _ _).mpr ⟨n, hn⟩
  · intro h
    obtain ⟨n, hn⟩ := (substr_iff_exists_drop _ _).mp h
    exact ⟨n, (likeMatch_lit_iff _ (map_lowerChar_meta_free _ hmeta) _).mpr hn⟩

/-- Reduction of the search route for a non-empty query. -/
theorem search_of_ne (s : State) (query : String) (hq : query ≠ "") :
    search s query =
      (s.users.filter (fun u => ilike u.username ("%" ++ query ++ "%")),
       sortByCreatedDesc (s.posts.filter (fun p => ilike p.caption ("%" ++ query ++ "%")))) := by
  unfold search
  rw [if_neg (by simpa using hq)]

/-- Reduction of the search route for the empty query. -/
theorem search_empty (t : State) : search t "" = ([], []) := by
  unfold search
  rw [if_pos (by rfl)]

/-- C8 counterexample: the query consisting of the single SQL wildcard
underscore matches the username x, which does not contain an underscore as a
substring — the route interpolates the raw query into the ILIKE pattern, so
LIKE metacharacters in the query act as wildcards, not literals. -/
theorem search_wildcard_matches_nonsubstring :
    (search exSearchState "_").1 = [⟨5, "x", "h", "", ""⟩] ∧
    ¬ ciSubstr "_" "x" := by
  constructor
  · rw [search_of_ne exSearchState "_" (by decide)]
    simp [exSearchState, List.filter, ilike, likeMatch, lowerChar]
  · decide

/-- C8 amended: the empty query returns empty user and post lists; a
non-empty query free of the SQL LIKE metacharacters percent, underscore and
backslash returns exactly the users whose username contains the query
case-insensitively and exactly the posts whose caption contains the query
case-insensitively, the posts ordered by creation timestamp descending (for
queries containing metacharacters the ILIKE pattern semantics applies
instead). -/
theorem search_spec (s : State) (query : String) (hq : query ≠ "")
    (hmeta : ∀ c ∈ query.data, c ≠ '%' ∧ c ≠ '_' ∧ c ≠ '\\') :
    (∀ u : User, u ∈ (search s query).1 ↔ (u ∈ s.users ∧ ciSubstr query u.username)) ∧
    (∀ p : Post, p ∈ (search s query).2 ↔ (p ∈ s.posts ∧ ciSubstr query p.caption)) ∧
    (search s query).2.Sorted postLe ∧
    (∀ t : State, search t "" = ([], [])) := by
  rw [search_of_ne s query hq]
  refine ⟨?_, ?_, ?_, search_empty⟩
  · intro u
    rw [List.mem_filter]
    exact and_congr_right fun _ => ilike_iff_ciSubstr u.username query hmeta
  · intro p
    show p ∈ sortByCreatedDesc _ ↔ _
    unfold sortByCreatedDesc
    rw [(List.perm_insertionSort postLe _).mem_iff, List.mem_filter]
    exact and_congr_right fun _ => ilike_iff_ciSubstr p.caption query hmeta
  · exact List.sorted_insertionSort postLe _

/-- C8 witness: the query cat finds the user named Cat and the post
captioned Cats are great, and the empty query returns nothing. -/
theorem search_spec_witness :
    (⟨1, "Cat", "h", "", ""⟩ : User) ∈ (search exCatState "cat").1 ∧
    (⟨2, "img", "Cats are great", 1, 0⟩ : Post) ∈ (search exCatState "cat").2 ∧
    search State.empty "" = ([], []) :=
  ⟨((search_spec exCatState "cat" (by decide) (by decide)).1 _).mpr ⟨by decide, by decide⟩,
   ((search_spec exCatState "cat" (by decide) (by decide)).2.1 _).mpr ⟨by decide, by decide⟩,
   (search_spec exCatState "cat" (by decide) (by decide)).2.2.2 State.empty⟩

/-- C5 witness: the empty comment is rejected and a non-empty comment is
appended, on a concrete post. -/
theorem add_comment_spec_witness :
    add_comment exPostState 2 3 "" = (some AppError.emptyComment, exPostState) ∧
    (add_comment exPostState 2 3 "nice").1 = none :=
  ⟨(add_comment_spec exPostState 2 3 "" ⟨⟨3, "img", "caption", 1, 0⟩, by decide, by decide⟩).1 rfl,
   ((add_comment_spec exPostState 2 3 "nice" ⟨⟨3, "img", "caption", 1, 0⟩, by decide, by decide⟩).2
     (by decide)).1⟩

end StelSocial
